import Mathlib

/-!
Verification of the peer-to-peer file-transfer client (`WebRTCContext`):
the signaling message handlers, the transfer handshake, the chunked
file-transfer sender loop and the receiving reassembly / progress
tracker, modelled as pure state-transition functions over an explicit
client state.

Byte counts and sizes are `Nat`.  The progress computation
`(received / fileSize) * 100` runs on JS numbers; it is modelled
exactly over `ℚ` extended with the JS special values reachable here:
`NaN` (from `0 / 0`) and `+Infinity` (from `r / 0` with `r > 0`).
-/

namespace P2P

/-- A JS number as produced by the progress computation: an ordinary
(exact) rational, `NaN`, or `+Infinity`.  Only nonnegative operands
occur (byte counts and file sizes), so `-Infinity` is unreachable. -/
inductive JNum where
  | nan : JNum
  | inf : JNum
  | num : ℚ → JNum
deriving DecidableEq

/-- JS division `a / b` for the nonnegative operands that occur in the
progress computation: `0 / 0 = NaN`, `a / 0 = +Infinity` for `a > 0`,
otherwise exact rational division. -/
def jsDiv (a b : ℚ) : JNum :=
  if b = 0 then (if a = 0 then JNum.nan else JNum.inf) else JNum.num (a / b)

/-- JS multiplication of the quotient by the literal `100`. -/
def jsMul100 : JNum → JNum
  | JNum.nan => JNum.nan
  | JNum.inf => JNum.inf
  | JNum.num q => JNum.num (q * 100)

/-- Model of `Math.min(x, 100)`: `NaN` propagates, `+Infinity` is capped. -/
def jsMin100 : JNum → JNum
  | JNum.nan => JNum.nan
  | JNum.inf => JNum.num 100
  | JNum.num q => JNum.num (min q 100)

/-- The progress value the client stores after `received` of `size`
bytes: `Math.min((received / size) * 100, 100)` on JS numbers. -/
def jsProgress (received size : Nat) : JNum :=
  jsMin100 (jsMul100 (jsDiv (received : ℚ) (size : ℚ)))

/-- IEEE-style comparison `a <= b` on JS numbers: every comparison
involving `NaN` is false. -/
def jleB : JNum → JNum → Bool
  | JNum.num a, JNum.num b => decide (a ≤ b)
  | JNum.num _, JNum.inf => true
  | JNum.inf, JNum.inf => true
  | _, _ => false

/-- Source constant `CHUNK_SIZE = 16384` — the fixed slice size of the sender. -/
def CHUNK_SIZE : Nat := 16384

/-- The bound (in milliseconds) of the wait for the data channel to
open in `startFileTransfer` (`setTimeout(..., 20000)`). -/
def OPEN_TIMEOUT_MS : Nat := 20000

/-- The `file-meta` control-frame payload
`{fileName, fileSize, fileType, senderId}`. -/
structure FileMeta where
  fileName : String
  fileSize : Nat
  fileType : String
  senderId : String
deriving DecidableEq

/-- One unit sent over the data channel: a `file-meta` control frame,
a binary frame (raw bytes), or a `file-end` control frame. -/
inductive Frame where
  | meta : FileMeta → Frame
  | binary : List Nat → Frame
  | fileEnd : Frame
deriving DecidableEq

/-- The read/send loop of `startFileTransfer` from byte offset
`offset`: `readSlice(o)` reads `file.slice(o, o + CHUNK_SIZE)`; the
`reader.onload` handler sends the slice as one binary frame, advances
`offset` by the slice byte length, and either reads the next slice
(`offset < file.size`) or sends the `file-end` control frame. -/
def sendLoop (file : List Nat) (offset : Nat) : List Frame :=
  Frame.binary ((file.drop offset).take CHUNK_SIZE) ::
    (if offset + ((file.drop offset).take CHUNK_SIZE).length < file.length then
      sendLoop file (offset + ((file.drop offset).take CHUNK_SIZE).length)
    else [Frame.fileEnd])
termination_by file.length - offset
decreasing_by
  simp only [List.length_take, List.length_drop, CHUNK_SIZE] at *
  omega

/-- The successive progress values `setActiveTransfer` stores in the
read/send loop of `startFileTransfer`: after each slice,
`Math.min((offset / file.size) * 100, 100)` at the advanced offset. -/
def senderProgresses (file : List Nat) (offset : Nat) : List JNum :=
  jsProgress (offset + ((file.drop offset).take CHUNK_SIZE).length) file.length ::
    (if offset + ((file.drop offset).take CHUNK_SIZE).length < file.length then
      senderProgresses file (offset + ((file.drop offset).take CHUNK_SIZE).length)
    else [])
termination_by file.length - offset
decreasing_by
  simp only [List.length_take, List.length_drop, CHUNK_SIZE] at *
  omega

/-- The decomposition of a byte list into the successive slices the
sender loop reads: maximal `CHUNK_SIZE` pieces, the last piece (the
whole list when it fits, including the empty list) possibly shorter. -/
def chunks (l : List Nat) : List (List Nat) :=
  if CHUNK_SIZE < l.length then
    l.take CHUNK_SIZE :: chunks (l.drop CHUNK_SIZE)
  else [l]
termination_by l.length
decreasing_by
  simp only [List.length_drop, CHUNK_SIZE] at *
  omega

/-- The full frame sequence `startFileTransfer` emits once the channel
is open: one `file-meta` frame, then the binary frames of the read
loop, ending in `file-end`. -/
def senderFrames (senderId : String) (fileName : String) (content : List Nat)
    (fileType : String) : List Frame :=
  Frame.meta ⟨fileName, content.length, fileType, senderId⟩ :: sendLoop content 0

/-- An entry of the `room_users` list: `{id, username}`. -/
structure UserInfo where
  id : String
  username : String
deriving DecidableEq

/-- A `File` object as the client uses it: `name`, `type`, and the
byte content (so `file.size` is `content.length` and
`file.slice(a, b)` is a sublist). -/
structure FileData where
  name : String
  content : List Nat
  ftype : String
deriving DecidableEq

/-- The `type` field of an active transfer: sending or receiving. -/
inductive TransferKind where
  | sending : TransferKind
  | receiving : TransferKind
deriving DecidableEq

/-- The `activeTransfer` object.  JS objects are open bags of fields,
so every field is optional; `{...null, progress}` and partial object
literals are representable. -/
structure Transfer where
  fileName : Option String := none
  fileSize : Option Nat := none
  progress : Option JNum := none
  kind : Option TransferKind := none
  file : Option FileData := none
  targetUserId : Option String := none
deriving DecidableEq

/-- The `incomingTransfer` object stored on a `transfer-request`. -/
structure IncomingTransfer where
  fromId : String
  fromUsername : String
  fileName : String
  fileSize : Nat
  fileType : String
deriving DecidableEq

/-- A session descriptor produced by the peer-connection library
(`createOffer` / `createAnswer`); its contents are opaque to the
protocol layer. -/
inductive SDesc where
  | offerDesc : SDesc
  | answerDesc : SDesc
deriving DecidableEq

/-- An ICE candidate payload; opaque to the protocol layer. -/
structure IceCand where
  payload : String
deriving DecidableEq

/-- The negotiation context (`RTCPeerConnection`): the peer it was
created for, its local/remote descriptions, and the remote candidates
ingested by `addIceCandidate`. -/
structure PeerConn where
  targetUserId : String
  localDescription : Option SDesc := none
  remoteDescription : Option SDesc := none
  remoteCandidates : List IceCand := []
deriving DecidableEq

/-- The data channel (`RTCDataChannel`), reduced to what the client
inspects: whether `readyState` equals the open state. -/
structure DataChan where
  isOpen : Bool
deriving DecidableEq

/-- The record POSTed to `/api/transfers` by `logTransfer`.
`receiverId` is optional because the sender passes
`activeTransfer.targetUserId`, which a JS object may lack. -/
structure TransferRecord where
  fileName : String
  fileSize : Nat
  fileType : String
  senderId : String
  receiverId : Option String
deriving DecidableEq

/-- An outbound signaling message (`ws.send`). -/
inductive OutMsg where
  | transferRequest : String → String → Nat → String → OutMsg
  | transferResponse : String → Bool → OutMsg
  | offer : String → SDesc → OutMsg
  | answer : String → SDesc → OutMsg
  | iceCandidate : String → IceCand → OutMsg
deriving DecidableEq

/-- An inbound signaling message (`socket.onmessage` cases).  The
relay annotates the sender id as `from`; the candidate of an
`ice-candidate` message may be absent (falsy). -/
inductive InMsg where
  | roomUsers : List UserInfo → InMsg
  | roomJoined : String → InMsg
  | roomLeft : InMsg
  | transferRequest : String → String → String → Nat → String → InMsg
  | transferResponse : String → Bool → InMsg
  | offer : String → SDesc → InMsg
  | answer : String → SDesc → InMsg
  | iceCandidate : String → Option IceCand → InMsg
deriving DecidableEq

/-- The whole client-side state of `WebRTCProvider`: the React state
and refs, plus the observable outputs (signaling messages sent, data
channel frames sent, toasts shown, artifacts saved, persistence
calls). -/
structure ClientState where
  wsConnected : Bool := false
  onlineUsers : List UserInfo := []
  currentRoom : Option String := none
  incomingTransfer : Option IncomingTransfer := none
  activeTransfer : Option Transfer := none
  peerConnection : Option PeerConn := none
  dataChannel : Option DataChan := none
  receivedBuffer : List (List Nat) := []
  receivedSize : Nat := 0
  transferMeta : Option FileMeta := none
  sent : List OutMsg := []
  sentFrames : List Frame := []
  toasts : List String := []
  savedArtifacts : List (List Nat) := []
  logAttempts : List TransferRecord := []
  logFailures : Nat := 0
deriving DecidableEq

/-- Model of `logTransfer`: one `fetch` POST of the record; a failed fetch is
caught and only logged (`console.error`), nothing else changes. -/
def logTransfer (fetchOk : Bool) (rec : TransferRecord) (s : ClientState) : ClientState :=
  { s with
    logAttempts := s.logAttempts ++ [rec],
    logFailures := s.logFailures + (if fetchOk then 0 else 1) }

/-- Model of `createPeerConnection(targetUserId)`: a fresh negotiation context
replaces the previous one in `peerConnectionRef`. -/
def createPeerConnection (targetUserId : String) (s : ClientState) : ClientState :=
  { s with peerConnection := some { targetUserId := targetUserId } }

/-- Model of `createOffer(targetUserId)`: fresh peer connection, fresh data
channel (`createDataChannel`, not yet open), local offer descriptor,
and one `offer` signaling message to the target. -/
def createOffer (targetUserId : String) (s : ClientState) : ClientState :=
  { s with
    peerConnection := some { targetUserId := targetUserId,
                             localDescription := some SDesc.offerDesc },
    dataChannel := some { isOpen := false },
    sent := s.sent ++ [OutMsg.offer targetUserId SDesc.offerDesc] }

/-- Model of `handleOffer(message)`: unconditionally creates a fresh peer
connection, ingests the offer as the remote description, produces the
local answer descriptor, and sends one `answer` message back to the
sender of the offer.  The data channel is not touched here (it arrives
later through `ondatachannel`). -/
def handleOffer (fromId : String) (d : SDesc) (s : ClientState) : ClientState :=
  { s with
    peerConnection := some { targetUserId := fromId,
                             localDescription := some SDesc.answerDesc,
                             remoteDescription := some d },
    sent := s.sent ++ [OutMsg.answer fromId SDesc.answerDesc] }

/-- Model of `handleAnswer(message)`: sets the remote description on the
current peer connection; with no current peer connection the null
dereference throws (`none`). -/
def handleAnswer (d : SDesc) (s : ClientState) : Option ClientState :=
  match s.peerConnection with
  | none => none
  | some pc => some { s with peerConnection := some { pc with remoteDescription := some d } }

/-- Model of `handleIceCandidate(message)`: if a peer connection exists and the
message carries a candidate, ingest it (`addIceCandidate`); otherwise
do nothing.  Never fails and never allocates a connection/channel. -/
def handleIceCandidate (c : Option IceCand) (s : ClientState) : ClientState :=
  match s.peerConnection, c with
  | some pc, some cand =>
    let pc1 : PeerConn := { pc with remoteCandidates := pc.remoteCandidates ++ [cand] }
    { s with peerConnection := some pc1 }
  | _, _ => s

/-- The `socket.onmessage` dispatcher.  `self` is the authenticated
user.  Returns `none` where the source would throw (an `answer` with
no current peer connection). -/
def handleSocketMessage (self : UserInfo) (s : ClientState) (m : InMsg) :
    Option ClientState :=
  match m with
  | InMsg.roomUsers users =>
    some { s with onlineUsers := users.filter (fun u => u.id != self.id) }
  | InMsg.roomJoined roomId =>
    some { s with currentRoom := some roomId,
                  toasts := s.toasts ++ ["Joined room: " ++ roomId] }
  | InMsg.roomLeft =>
    some { s with currentRoom := none, onlineUsers := [],
                  toasts := s.toasts ++ ["Left the room"] }
  | InMsg.transferRequest fromId fromUsername fileName fileSize fileType =>
    let it : IncomingTransfer := ⟨fromId, fromUsername, fileName, fileSize, fileType⟩
    some { s with incomingTransfer := some it }
  | InMsg.transferResponse fromId accepted =>
    if accepted then some (createOffer fromId s)
    else some { s with toasts := s.toasts ++ ["Transfer rejected by recipient"],
                       activeTransfer := none }
  | InMsg.offer fromId d => some (handleOffer fromId d s)
  | InMsg.answer _ d => handleAnswer d s
  | InMsg.iceCandidate _ c => some (handleIceCandidate c s)

/-- Model of `sendFile(file, targetUserId)`: with no live socket or no file it
returns immediately; otherwise it sends exactly one
`transfer-request` and records the local pending transfer with
progress 0. -/
def sendFile (s : ClientState) (file : Option FileData) (targetUserId : String) :
    ClientState :=
  match file with
  | none => s
  | some fd =>
    if s.wsConnected then
      { s with
        sent := s.sent ++ [OutMsg.transferRequest targetUserId fd.name
          fd.content.length fd.ftype],
        activeTransfer := some { fileName := some fd.name,
                                 fileSize := some fd.content.length,
                                 progress := some (JNum.num 0),
                                 kind := some TransferKind.sending,
                                 file := some fd,
                                 targetUserId := some targetUserId } }
    else s

/-- Model of `acceptTransfer()`: with a pending incoming transfer and a live
socket, send `{accepted: true}` and clear the incoming transfer. -/
def acceptTransfer (s : ClientState) : ClientState :=
  match s.incomingTransfer with
  | none => s
  | some it =>
    if s.wsConnected then
      { s with sent := s.sent ++ [OutMsg.transferResponse it.fromId true],
               incomingTransfer := none }
    else s

/-- Model of `rejectTransfer()`: with a pending incoming transfer and a live
socket, send `{accepted: false}` and clear the incoming transfer.  No
negotiation message of any kind is produced. -/
def rejectTransfer (s : ClientState) : ClientState :=
  match s.incomingTransfer with
  | none => s
  | some it =>
    if s.wsConnected then
      { s with sent := s.sent ++ [OutMsg.transferResponse it.fromId false],
               incomingTransfer := none }
    else s

/-- Model of `startFileTransfer()`.  `opensInTime` stands for the external
event "the data channel reached the open state within the 20 s bound"
(`OPEN_TIMEOUT_MS`); `fetchOk` for the outcome of the `logTransfer`
fetch.  On timeout the source only toasts an error and returns: the
active transfer is left in place.  On success it sends `file-meta`,
the binary slices and `file-end`, toasts success, logs the transfer,
and (2 s later, via `setTimeout`) clears the active transfer. -/
def startFileTransfer (self : UserInfo) (opensInTime fetchOk : Bool)
    (s : ClientState) : ClientState :=
  match s.activeTransfer with
  | none => s
  | some t =>
    match t.file, s.dataChannel with
    | some file, some ch =>
      if ch.isOpen || opensInTime then
        logTransfer fetchOk
          ⟨file.name, file.content.length, file.ftype, self.id, t.targetUserId⟩
          { s with
            sentFrames := s.sentFrames ++
              senderFrames self.id file.name file.content file.ftype,
            toasts := s.toasts ++ ["File sent successfully!"],
            activeTransfer := none }
      else
        { s with toasts := s.toasts ++ ["Data channel failed to open"] }
    | _, _ => s

/-- The `channel.onmessage` handler.  Returns `none` where the source
would throw: a binary frame or `file-end` arriving before any
`file-meta` dereferences the null `transferMetaRef.current`. -/
def handleChannelMessage (self : UserInfo) (fetchOk : Bool) (s : ClientState)
    (f : Frame) : Option ClientState :=
  match f with
  | Frame.meta m =>
    some { s with
      transferMeta := some m,
      receivedBuffer := [],
      receivedSize := 0,
      activeTransfer := some { fileName := some m.fileName,
                               fileSize := some m.fileSize,
                               progress := some (JNum.num 0),
                               kind := some TransferKind.receiving } }
  | Frame.binary data =>
    match s.transferMeta with
    | none => none
    | some m =>
      some { s with
        receivedBuffer := s.receivedBuffer ++ [data],
        receivedSize := s.receivedSize + data.length,
        activeTransfer := some { s.activeTransfer.getD {} with
          progress := some (jsProgress (s.receivedSize + data.length) m.fileSize) } }
  | Frame.fileEnd =>
    match s.transferMeta with
    | none => none
    | some m =>
      some (logTransfer fetchOk
        ⟨m.fileName, m.fileSize, m.fileType, m.senderId, some self.id⟩
        { s with
          savedArtifacts := s.savedArtifacts ++ [s.receivedBuffer.flatten],
          toasts := s.toasts ++ ["File received successfully!"],
          activeTransfer := none })

/-- Processing a sequence of data-channel frames in order. -/
def runChannel (self : UserInfo) (fetchOk : Bool) (s : ClientState) :
    List Frame → Option ClientState
  | [] => some s
  | f :: fs =>
    match handleChannelMessage self fetchOk s f with
    | none => none
    | some s1 => runChannel self fetchOk s1 fs

/-- The progress field of the active transfer, as the UI reads it. -/
def progressOf (s : ClientState) : Option JNum :=
  s.activeTransfer.bind Transfer.progress


/-- A concrete user, used in closed instances of the theorems. -/
def wAlice : UserInfo := ⟨"u1", "alice"⟩

/-- A second concrete user. -/
def wBob : UserInfo := ⟨"u2", "bob"⟩

/-- A concrete three-byte file. -/
def wFile3 : FileData := ⟨"a.txt", [10, 20, 30], "text/plain"⟩

/-- A concrete pending sending transfer of `wFile3` to `wBob`. -/
def wSendingTransfer : Transfer :=
  { fileName := some "a.txt", fileSize := some 3, progress := some (JNum.num 0),
    kind := some TransferKind.sending, file := some wFile3, targetUserId := some "u2" }

/-- A concrete `file-meta` payload matching `wFile3`. -/
def wMeta : FileMeta := ⟨"a.txt", 3, "text/plain", "u1"⟩

/-- A client state holding a pending sending transfer over an open channel. -/
def wStateOpen : ClientState :=
  { wsConnected := true, activeTransfer := some wSendingTransfer,
    dataChannel := some ⟨true⟩ }

/-- A client state holding a pending sending transfer over a channel
that is not yet open. -/
def wStateClosed : ClientState :=
  { wsConnected := true, activeTransfer := some wSendingTransfer,
    dataChannel := some ⟨false⟩ }

/-- A client state that has already received the `file-meta` frame `wMeta`. -/
def wStateMeta : ClientState := { transferMeta := some wMeta }

/-- A client state with a pending incoming transfer from `wBob`. -/
def wStateIncoming : ClientState :=
  { wsConnected := true,
    incomingTransfer := some ⟨"u2", "bob", "a.txt", 3, "text/plain"⟩ }

/-- A concrete peer connection towards `wBob`. -/
def wPC : PeerConn := { targetUserId := "u2" }

/-- A client state with an existing peer connection towards `wBob`. -/
def wStatePC : ClientState := { peerConnection := some wPC }

/-- A concrete ICE candidate. -/
def wCand : IceCand := ⟨"cand1"⟩


theorem chunks_ne_nil (l : List Nat) : chunks l ≠ [] := by
  rw [chunks]
  split <;> simp

theorem chunks_flatten (l : List Nat) : (chunks l).flatten = l := by
  by_cases h : CHUNK_SIZE < l.length
  · rw [chunks, if_pos h]
    rw [List.flatten_cons, chunks_flatten (l.drop CHUNK_SIZE), List.take_append_drop]
  · rw [chunks, if_neg h]
    simp
termination_by l.length
decreasing_by
  simp only [List.length_drop, CHUNK_SIZE] at *
  omega

theorem chunks_length_le (l : List Nat) : ∀ c ∈ chunks l, c.length ≤ CHUNK_SIZE := by
  intro c hc
  by_cases h : CHUNK_SIZE < l.length
  · rw [chunks, if_pos h] at hc
    rcases List.mem_cons.mp hc with h1 | h1
    · subst h1
      simp [List.length_take]
    · exact chunks_length_le (l.drop CHUNK_SIZE) c h1
  · rw [chunks, if_neg h] at hc
    rcases List.mem_singleton.mp hc with rfl
    omega
termination_by l.length
decreasing_by
  simp only [List.length_drop, CHUNK_SIZE] at *
  omega

theorem chunks_dropLast_length (l : List Nat) :
    ∀ c ∈ (chunks l).dropLast, c.length = CHUNK_SIZE := by
  intro c hc
  by_cases h : CHUNK_SIZE < l.length
  · rw [chunks, if_pos h] at hc
    rw [List.dropLast_cons_of_ne_nil (chunks_ne_nil _)] at hc
    rcases List.mem_cons.mp hc with h1 | h1
    · subst h1
      simp [List.length_take]
      omega
    · exact chunks_dropLast_length (l.drop CHUNK_SIZE) c h1
  · rw [chunks, if_neg h] at hc
    simp at hc
termination_by l.length
decreasing_by
  simp only [List.length_drop, CHUNK_SIZE] at *
  omega

theorem chunks_sum_length (l : List Nat) :
    ((chunks l).map List.length).sum = l.length := by
  rw [← List.length_flatten, chunks_flatten]

/-- The sender loop emits exactly the `chunks` decomposition of the
unread suffix of the file, followed by the `file-end` frame. -/
theorem sendLoop_eq_chunks (file : List Nat) (offset : Nat) (h : offset ≤ file.length) :
    sendLoop file offset = (chunks (file.drop offset)).map Frame.binary ++ [Frame.fileEnd] := by
  by_cases hcase : CHUNK_SIZE < (file.drop offset).length
  · have hdlen : (file.drop offset).length = file.length - offset := List.length_drop ..
    have hcl : CHUNK_SIZE + offset < file.length := by omega
    have hslice : ((file.drop offset).take CHUNK_SIZE).length = CHUNK_SIZE := by
      simp only [List.length_take, hdlen]
      omega
    rw [sendLoop]
    rw [hslice]
    rw [if_pos (show offset + CHUNK_SIZE < file.length by omega)]
    rw [chunks, if_pos hcase]
    rw [sendLoop_eq_chunks file (offset + CHUNK_SIZE) (by omega)]
    rw [List.drop_drop]
    simp
  · have hdlen : (file.drop offset).length = file.length - offset := List.length_drop ..
    have hslice : (file.drop offset).take CHUNK_SIZE = file.drop offset :=
      List.take_of_length_le (by omega)
    rw [sendLoop]
    rw [hslice]
    rw [if_neg (show ¬ offset + (file.drop offset).length < file.length by rw [hdlen]; omega)]
    rw [chunks, if_neg hcase]
    simp
termination_by file.length - offset
decreasing_by
  simp only [CHUNK_SIZE] at *
  omega

theorem jsProgress_eq (received size : Nat) (h : 1 ≤ size) :
    jsProgress received size = JNum.num (min 100 (100 * (received : ℚ) / (size : ℚ))) := by
  have hz : ((size : ℚ)) ≠ 0 := Nat.cast_ne_zero.mpr (by omega)
  rw [jsProgress, jsDiv, if_neg hz, jsMul100, jsMin100]
  rw [min_comm]
  congr 1
  ring_nf

theorem jsProgress_mono (size : Nat) (h : 1 ≤ size) (r r' : Nat) (hrr : r ≤ r') :
    jleB (jsProgress r size) (jsProgress r' size) = true := by
  rw [jsProgress_eq r size h, jsProgress_eq r' size h]
  simp only [jleB, decide_eq_true_eq]
  apply min_le_min le_rfl
  rw [div_le_div_iff_of_pos_right (by exact_mod_cast h)]
  have : ((r : ℚ)) ≤ (r' : ℚ) := by exact_mod_cast hrr
  nlinarith

theorem jsProgress_le_100 (r size : Nat) (h : 1 ≤ size) :
    jleB (jsProgress r size) (JNum.num 100) = true := by
  rw [jsProgress_eq r size h]
  simp [jleB]

theorem jsProgress_nonneg (r size : Nat) (h : 1 ≤ size) :
    jleB (JNum.num 0) (jsProgress r size) = true := by
  rw [jsProgress_eq r size h]
  simp only [jleB, decide_eq_true_eq]
  apply le_min (by norm_num)
  positivity

theorem jsProgress_zero (size : Nat) (h : 1 ≤ size) :
    jsProgress 0 size = JNum.num 0 := by
  rw [jsProgress_eq 0 size h]
  norm_num

/-- Along the sender loop the stored progress never decreases. -/
theorem senderProgresses_chain (file : List Nat) (hf : 1 ≤ file.length) (offset : Nat) :
    List.Chain' (fun a b => jleB a b = true)
      (jsProgress offset file.length :: senderProgresses file offset) := by
  rw [senderProgresses]
  by_cases hlt : offset + ((file.drop offset).take CHUNK_SIZE).length < file.length
  · rw [if_pos hlt]
    rw [List.chain'_cons]
    exact ⟨jsProgress_mono file.length hf offset _ (Nat.le_add_right ..),
      senderProgresses_chain file hf _⟩
  · rw [if_neg hlt]
    rw [List.chain'_cons]
    exact ⟨jsProgress_mono file.length hf offset _ (Nat.le_add_right ..), List.chain'_singleton _⟩
termination_by file.length - offset
decreasing_by
  simp only [List.length_take, List.length_drop, CHUNK_SIZE] at *
  omega

/-- Every progress value the sender loop stores is at most 100. -/
theorem senderProgresses_le_100 (file : List Nat) (hf : 1 ≤ file.length) (offset : Nat) :
    ∀ p ∈ senderProgresses file offset, jleB p (JNum.num 100) = true := by
  intro p hp
  rw [senderProgresses] at hp
  by_cases hlt : offset + ((file.drop offset).take CHUNK_SIZE).length < file.length
  · rw [if_pos hlt] at hp
    rcases List.mem_cons.mp hp with rfl | h1
    · exact jsProgress_le_100 _ _ hf
    · exact senderProgresses_le_100 file hf _ p h1
  · rw [if_neg hlt] at hp
    rcases List.mem_cons.mp hp with rfl | h1
    · exact jsProgress_le_100 _ _ hf
    · simp at h1
termination_by file.length - offset
decreasing_by
  simp only [List.length_take, List.length_drop, CHUNK_SIZE] at *
  omega

/-- C4: when the receiver rejects a transfer request
(`transfer-response` with `accepted: false`), no offer (indeed no
signaling message at all) is sent by the sender handling the response,
the pending active transfer is discarded, and a user-visible rejection
notice is surfaced; on the receiver side, `rejectTransfer` sends only
the single `{accepted: false}` response and no offer.  Rejection is a
normal outcome: the handler never fails. -/
theorem C4_reject_no_offer (self : UserInfo) (s : ClientState) (fromId : String) :
    handleSocketMessage self s (InMsg.transferResponse fromId false) =
      some { s with toasts := s.toasts ++ ["Transfer rejected by recipient"],
                    activeTransfer := none }
    ∧ (∀ it, s.incomingTransfer = some it → s.wsConnected = true →
        rejectTransfer s =
          { s with sent := s.sent ++ [OutMsg.transferResponse it.fromId false],
                   incomingTransfer := none }) := by
  refine ⟨rfl, ?_⟩
  intro it hit hws
  simp [rejectTransfer, hit, hws]

/-- Closed instance of `C4_reject_no_offer`. -/
theorem C4_reject_no_offer_witness :
    handleSocketMessage wAlice wStateIncoming (InMsg.transferResponse "u2" false) =
      some { wStateIncoming with
        toasts := wStateIncoming.toasts ++ ["Transfer rejected by recipient"],
        activeTransfer := none }
    ∧ (∀ it, wStateIncoming.incomingTransfer = some it →
        wStateIncoming.wsConnected = true →
        rejectTransfer wStateIncoming =
          { wStateIncoming with
            sent := wStateIncoming.sent ++ [OutMsg.transferResponse it.fromId false],
            incomingTransfer := none }) :=
  C4_reject_no_offer wAlice wStateIncoming "u2"

/-- C5 (amended): if the data channel does not reach the open state
within the bounded 20 s wait (`OPEN_TIMEOUT_MS`), the attempt is
abandoned — no `file-meta` or binary frame is sent, the failure is
surfaced as a toast, and no persistence call happens — but the pending
active transfer is NOT discarded: it stays in place unchanged. -/
theorem C5_timeout_abandons (self : UserInfo) (fetchOk : Bool) (s : ClientState)
    (t : Transfer) (fd : FileData) (ch : DataChan)
    (hat : s.activeTransfer = some t) (hfile : t.file = some fd)
    (hch : s.dataChannel = some ch) (hopen : ch.isOpen = false) :
    startFileTransfer self false fetchOk s =
      { s with toasts := s.toasts ++ ["Data channel failed to open"] }
    ∧ (startFileTransfer self false fetchOk s).sentFrames = s.sentFrames
    ∧ (startFileTransfer self false fetchOk s).activeTransfer = some t
    ∧ (startFileTransfer self false fetchOk s).logAttempts = s.logAttempts
    ∧ OPEN_TIMEOUT_MS = 20000 := by
  have h : startFileTransfer self false fetchOk s =
      { s with toasts := s.toasts ++ ["Data channel failed to open"] } := by
    simp [startFileTransfer, hat, hfile, hch, hopen]
  refine ⟨h, by rw [h], by rw [h]; exact hat, by rw [h], rfl⟩

/-- Closed instance of `C5_timeout_abandons`. -/
theorem C5_timeout_abandons_witness :
    startFileTransfer wAlice false true wStateClosed =
      { wStateClosed with
        toasts := wStateClosed.toasts ++ ["Data channel failed to open"] }
    ∧ (startFileTransfer wAlice false true wStateClosed).sentFrames =
        wStateClosed.sentFrames
    ∧ (startFileTransfer wAlice false true wStateClosed).activeTransfer =
        some wSendingTransfer
    ∧ (startFileTransfer wAlice false true wStateClosed).logAttempts =
        wStateClosed.logAttempts
    ∧ OPEN_TIMEOUT_MS = 20000 :=
  C5_timeout_abandons wAlice true wStateClosed wSendingTransfer wFile3 ⟨false⟩
    rfl rfl rfl rfl

/-- C5 counterexample to the claim as stated: at a concrete state
whose channel never opens in time, the pending active transfer is NOT
discarded — it is still present (and the failure toast was shown), so
"the pending Transfer is discarded" is false on the code. -/
theorem C5_counterexample :
    (startFileTransfer wAlice false true wStateClosed).activeTransfer ≠ none
    ∧ (startFileTransfer wAlice false true wStateClosed).activeTransfer =
        some wSendingTransfer
    ∧ (startFileTransfer wAlice false true wStateClosed).toasts =
        ["Data channel failed to open"]
    ∧ (startFileTransfer wAlice false true wStateClosed).sentFrames = [] := by
  refine ⟨?_, rfl, rfl, rfl⟩
  intro h
  simp [startFileTransfer, wStateClosed, wSendingTransfer] at h

/-- C6: every incoming offer — including an unsolicited one, since no
precondition on the state is required — makes the responder create a
fresh negotiation context, ingest the offer as the remote description,
produce an answer descriptor, and send exactly one answer message
targeted at the sender of the offer. -/
theorem C6_offer_always_answered (self : UserInfo) (s : ClientState)
    (fromId : String) (d : SDesc) :
    handleSocketMessage self s (InMsg.offer fromId d) =
      some { s with
        peerConnection := some { targetUserId := fromId,
                                 localDescription := some SDesc.answerDesc,
                                 remoteDescription := some d },
        sent := s.sent ++ [OutMsg.answer fromId SDesc.answerDesc] } := rfl

/-- C7: an `ice_candidate` for an existing peer connection never
fails, only appends the candidate to the existing negotiation context,
and allocates no new peer connection or data channel; processing the
same candidate twice also never fails and still duplicates nothing —
only the candidate list grows. -/
theorem C7_ice_candidate_benign (self : UserInfo) (s : ClientState) (fromId : String)
    (c : IceCand) (pc : PeerConn) (hpc : s.peerConnection = some pc) :
    handleSocketMessage self s (InMsg.iceCandidate fromId (some c)) =
      some { s with peerConnection := some { pc with remoteCandidates := pc.remoteCandidates ++ [c] } }
    ∧ (handleSocketMessage self s (InMsg.iceCandidate fromId (some c))).bind
        (fun s1 => handleSocketMessage self s1 (InMsg.iceCandidate fromId (some c))) =
      some { s with peerConnection := some { pc with remoteCandidates := pc.remoteCandidates ++ [c, c] } } := by
  have h1 : handleIceCandidate (some c) s =
      { s with peerConnection := some { pc with remoteCandidates := pc.remoteCandidates ++ [c] } } := by
    simp [handleIceCandidate, hpc]
  have h2 : handleIceCandidate (some c)
      { s with peerConnection := some { pc with remoteCandidates := pc.remoteCandidates ++ [c] } } =
      { s with peerConnection := some { pc with remoteCandidates := pc.remoteCandidates ++ [c, c] } } := by
    simp [handleIceCandidate]
  constructor
  · simp [handleSocketMessage, h1]
  · simp [handleSocketMessage, h1, h2]

/-- Closed instance of `C7_ice_candidate_benign`. -/
theorem C7_ice_candidate_benign_witness :
    handleSocketMessage wAlice wStatePC (InMsg.iceCandidate "u2" (some wCand)) =
      some { wStatePC with peerConnection := some { wPC with remoteCandidates := wPC.remoteCandidates ++ [wCand] } }
    ∧ (handleSocketMessage wAlice wStatePC (InMsg.iceCandidate "u2" (some wCand))).bind
        (fun s1 => handleSocketMessage wAlice s1 (InMsg.iceCandidate "u2" (some wCand))) =
      some { wStatePC with peerConnection := some { wPC with remoteCandidates := wPC.remoteCandidates ++ [wCand, wCand] } } :=
  C7_ice_candidate_benign wAlice wStatePC "u2" wCand wPC rfl

/-- C9: on every `room_users` event the displayed peer list is exactly
the received member list minus the member itself, filtered by id, so
the member never appears in its own displayed list. -/
theorem C9_room_users_excludes_self (self : UserInfo) (s : ClientState)
    (users : List UserInfo) :
    ∃ s1, handleSocketMessage self s (InMsg.roomUsers users) = some s1
      ∧ s1.onlineUsers = users.filter (fun u => u.id != self.id)
      ∧ (∀ u, u ∈ s1.onlineUsers ↔ (u ∈ users ∧ u.id ≠ self.id))
      ∧ (∀ u ∈ s1.onlineUsers, u.id ≠ self.id) := by
  refine ⟨_, rfl, rfl, ?_, ?_⟩
  · intro u
    simp [List.mem_filter]
  · intro u hu
    simp [List.mem_filter] at hu
    exact hu.2

/-- Closed instance of `C9_room_users_excludes_self`. -/
theorem C9_room_users_excludes_self_witness :
    ∃ s1, handleSocketMessage wAlice {} (InMsg.roomUsers [wAlice, wBob]) = some s1
      ∧ s1.onlineUsers = [wAlice, wBob].filter (fun u => u.id != wAlice.id)
      ∧ (∀ u, u ∈ s1.onlineUsers ↔ (u ∈ [wAlice, wBob] ∧ u.id ≠ wAlice.id))
      ∧ (∀ u ∈ s1.onlineUsers, u.id ≠ wAlice.id) :=
  C9_room_users_excludes_self wAlice {} [wAlice, wBob]

/-- C10: `sendFile` with a missing socket or a missing file is a
complete no-op (no message, no pending transfer); otherwise it sends
exactly one `transfer-request` carrying name, size and type to the
target and records a local pending sending transfer with progress
0. -/
theorem C10_sendFile_guard (s : ClientState) (target : String) :
    sendFile s none target = s
    ∧ (s.wsConnected = false → ∀ fd, sendFile s (some fd) target = s)
    ∧ (s.wsConnected = true → ∀ fd, sendFile s (some fd) target =
        { s with
          sent := s.sent ++
            [OutMsg.transferRequest target fd.name fd.content.length fd.ftype],
          activeTransfer := some { fileName := some fd.name,
                                   fileSize := some fd.content.length,
                                   progress := some (JNum.num 0),
                                   kind := some TransferKind.sending,
                                   file := some fd,
                                   targetUserId := some target } }) := by
  refine ⟨rfl, ?_, ?_⟩
  · intro h fd
    simp [sendFile, h]
  · intro h fd
    simp [sendFile, h]

/-- Closed instance of `C10_sendFile_guard`. -/
theorem C10_sendFile_guard_witness :
    sendFile wStateIncoming none "u2" = wStateIncoming
    ∧ (wStateIncoming.wsConnected = false →
        ∀ fd, sendFile wStateIncoming (some fd) "u2" = wStateIncoming)
    ∧ (wStateIncoming.wsConnected = true →
        ∀ fd, sendFile wStateIncoming (some fd) "u2" =
        { wStateIncoming with
          sent := wStateIncoming.sent ++
            [OutMsg.transferRequest "u2" fd.name fd.content.length fd.ftype],
          activeTransfer := some { fileName := some fd.name,
                                   fileSize := some fd.content.length,
                                   progress := some (JNum.num 0),
                                   kind := some TransferKind.sending,
                                   file := some fd,
                                   targetUserId := some "u2" } }) :=
  C10_sendFile_guard wStateIncoming "u2"

/-- C8: the completion outcome of a received transfer — artifact
saved, success toast, active transfer cleared, exactly one persistence
attempt — is identical whether the persistence call succeeds or fails;
a failing call only increments the failure log, with no rollback and
no retry.  In general, `logTransfer` never touches the transfer state,
toasts, artifacts or frames, and makes exactly one attempt. -/
theorem C8_persistence_isolated (self : UserInfo) (s : ClientState) (m : FileMeta)
    (hm : s.transferMeta = some m) :
    ∃ sOk, handleChannelMessage self true s Frame.fileEnd = some sOk
      ∧ handleChannelMessage self false s Frame.fileEnd =
          some { sOk with logFailures := sOk.logFailures + 1 }
      ∧ sOk.savedArtifacts = s.savedArtifacts ++ [s.receivedBuffer.flatten]
      ∧ sOk.toasts = s.toasts ++ ["File received successfully!"]
      ∧ sOk.activeTransfer = none
      ∧ sOk.logAttempts = s.logAttempts ++
          [⟨m.fileName, m.fileSize, m.fileType, m.senderId, some self.id⟩]
      ∧ (∀ (fOk : Bool) (rec : TransferRecord) (s2 : ClientState),
          (logTransfer fOk rec s2).activeTransfer = s2.activeTransfer
          ∧ (logTransfer fOk rec s2).toasts = s2.toasts
          ∧ (logTransfer fOk rec s2).savedArtifacts = s2.savedArtifacts
          ∧ (logTransfer fOk rec s2).sentFrames = s2.sentFrames
          ∧ (logTransfer fOk rec s2).logAttempts = s2.logAttempts ++ [rec]) := by
  refine ⟨logTransfer true ⟨m.fileName, m.fileSize, m.fileType, m.senderId, some self.id⟩
    { s with savedArtifacts := s.savedArtifacts ++ [s.receivedBuffer.flatten],
             toasts := s.toasts ++ ["File received successfully!"],
             activeTransfer := none }, ?_, ?_, rfl, rfl, rfl, rfl, ?_⟩
  · simp [handleChannelMessage, hm]
  · simp [handleChannelMessage, hm, logTransfer]
  · intro fOk rec s2
    exact ⟨rfl, rfl, rfl, rfl, rfl⟩

/-- Closed instance of `C8_persistence_isolated`. -/
theorem C8_persistence_isolated_witness :
    ∃ sOk, handleChannelMessage wAlice true wStateMeta Frame.fileEnd = some sOk
      ∧ handleChannelMessage wAlice false wStateMeta Frame.fileEnd =
          some { sOk with logFailures := sOk.logFailures + 1 }
      ∧ sOk.savedArtifacts =
          wStateMeta.savedArtifacts ++ [wStateMeta.receivedBuffer.flatten]
      ∧ sOk.toasts = wStateMeta.toasts ++ ["File received successfully!"]
      ∧ sOk.activeTransfer = none
      ∧ sOk.logAttempts = wStateMeta.logAttempts ++
          [⟨wMeta.fileName, wMeta.fileSize, wMeta.fileType, wMeta.senderId, some wAlice.id⟩]
      ∧ (∀ (fOk : Bool) (rec : TransferRecord) (s2 : ClientState),
          (logTransfer fOk rec s2).activeTransfer = s2.activeTransfer
          ∧ (logTransfer fOk rec s2).toasts = s2.toasts
          ∧ (logTransfer fOk rec s2).savedArtifacts = s2.savedArtifacts
          ∧ (logTransfer fOk rec s2).sentFrames = s2.sentFrames
          ∧ (logTransfer fOk rec s2).logAttempts = s2.logAttempts ++ [rec]) :=
  C8_persistence_isolated wAlice wStateMeta wMeta rfl

/-- C1: once the channel is open, the sender emits exactly one
`file-meta` frame (with the file name, byte length and type and the
sender id) before any binary frame, then binary frames whose payloads
concatenate, in order, to exactly the file content — each of size at
most `CHUNK_SIZE` and all but the last of size exactly `CHUNK_SIZE` —
and exactly one final `file-end` frame; the total binary length equals
the declared `fileSize`. -/
theorem C1_sender_framing (self : UserInfo) (opensInTime fetchOk : Bool)
    (s : ClientState) (t : Transfer) (fd : FileData) (ch : DataChan)
    (hat : s.activeTransfer = some t) (hfile : t.file = some fd)
    (hch : s.dataChannel = some ch) (hopen : ch.isOpen = true) :
    ∃ bs : List (List Nat),
      (startFileTransfer self opensInTime fetchOk s).sentFrames =
        s.sentFrames ++ (Frame.meta ⟨fd.name, fd.content.length, fd.ftype, self.id⟩ ::
          (bs.map Frame.binary ++ [Frame.fileEnd]))
      ∧ bs.flatten = fd.content
      ∧ (∀ c ∈ bs, c.length ≤ CHUNK_SIZE)
      ∧ (∀ c ∈ bs.dropLast, c.length = CHUNK_SIZE)
      ∧ (bs.map List.length).sum = fd.content.length := by
  refine ⟨chunks fd.content, ?_, chunks_flatten _, chunks_length_le _,
    chunks_dropLast_length _, chunks_sum_length _⟩
  have h : (startFileTransfer self opensInTime fetchOk s).sentFrames =
      s.sentFrames ++ senderFrames self.id fd.name fd.content fd.ftype := by
    simp [startFileTransfer, hat, hfile, hch, hopen, logTransfer]
  rw [h, senderFrames, sendLoop_eq_chunks fd.content 0 (Nat.zero_le _), List.drop_zero]

/-- Closed instance of `C1_sender_framing`. -/
theorem C1_sender_framing_witness :
    ∃ bs : List (List Nat),
      (startFileTransfer wAlice false true wStateOpen).sentFrames =
        wStateOpen.sentFrames ++
          (Frame.meta ⟨wFile3.name, wFile3.content.length, wFile3.ftype, wAlice.id⟩ ::
            (bs.map Frame.binary ++ [Frame.fileEnd]))
      ∧ bs.flatten = wFile3.content
      ∧ (∀ c ∈ bs, c.length ≤ CHUNK_SIZE)
      ∧ (∀ c ∈ bs.dropLast, c.length = CHUNK_SIZE)
      ∧ (bs.map List.length).sum = wFile3.content.length :=
  C1_sender_framing wAlice false true wStateOpen wSendingTransfer wFile3 ⟨true⟩
    rfl rfl rfl rfl

theorem runChannel_append (self : UserInfo) (fetchOk : Bool) :
    ∀ (fs1 fs2 : List Frame) (s : ClientState),
      runChannel self fetchOk s (fs1 ++ fs2) =
        (runChannel self fetchOk s fs1).bind (fun s1 => runChannel self fetchOk s1 fs2) := by
  intro fs1
  induction fs1 with
  | nil => intro fs2 s; rfl
  | cons f rest ih =>
    intro fs2 s
    simp only [List.cons_append, runChannel]
    cases handleChannelMessage self fetchOk s f with
    | none => rfl
    | some s1 => exact ih fs2 s1

/-- Effect of a block of binary frames on a state that already holds
the transfer metadata: buffer and counter accumulate, nothing else
changes, and the stored progress is that of the final running total
(or unchanged when the block is empty). -/
theorem runChannel_binaries (self : UserInfo) (fetchOk : Bool) (m : FileMeta) :
    ∀ (cs : List (List Nat)) (s : ClientState), s.transferMeta = some m →
    ∃ s1, runChannel self fetchOk s (cs.map Frame.binary) = some s1
      ∧ s1.transferMeta = some m
      ∧ s1.receivedBuffer = s.receivedBuffer ++ cs
      ∧ s1.receivedSize = s.receivedSize + (cs.map List.length).sum
      ∧ s1.savedArtifacts = s.savedArtifacts
      ∧ s1.toasts = s.toasts
      ∧ s1.logAttempts = s.logAttempts
      ∧ s1.logFailures = s.logFailures
      ∧ s1.sentFrames = s.sentFrames
      ∧ s1.sent = s.sent
      ∧ progressOf s1 = (if cs.isEmpty then progressOf s
          else some (jsProgress (s.receivedSize + (cs.map List.length).sum) m.fileSize)) := by
  intro cs
  induction cs with
  | nil =>
    intro s hm
    exact ⟨s, rfl, hm, by simp, by simp, rfl, rfl, rfl, rfl, rfl, rfl, by simp⟩
  | cons c rest ih =>
    intro s hm
    have hstep : handleChannelMessage self fetchOk s (Frame.binary c) =
        some { s with
          receivedBuffer := s.receivedBuffer ++ [c],
          receivedSize := s.receivedSize + c.length,
          activeTransfer := some { s.activeTransfer.getD {} with
            progress := some (jsProgress (s.receivedSize + c.length) m.fileSize) } } := by
      simp [handleChannelMessage, hm]
    obtain ⟨s1, hrun, hmeta, hbuf, hsize, hart, htoast, hlog, hlogf, hframes, hsent, hprog⟩ :=
      ih { s with
        receivedBuffer := s.receivedBuffer ++ [c],
        receivedSize := s.receivedSize + c.length,
        activeTransfer := some { s.activeTransfer.getD {} with
          progress := some (jsProgress (s.receivedSize + c.length) m.fileSize) } } hm
    refine ⟨s1, ?_, hmeta, ?_, ?_, hart, htoast, hlog, hlogf, hframes, hsent, ?_⟩
    · simp only [List.map_cons, runChannel, hstep]
      exact hrun
    · rw [hbuf]
      simp
    · rw [hsize]
      simp only [List.map_cons, List.sum_cons]
      omega
    · rw [hprog]
      have hrecv : ({ s with
          receivedBuffer := s.receivedBuffer ++ [c],
          receivedSize := s.receivedSize + c.length,
          activeTransfer := some { s.activeTransfer.getD {} with
            progress := some (jsProgress (s.receivedSize + c.length) m.fileSize) } } :
          ClientState).receivedSize = s.receivedSize + c.length := rfl
      rcases rest with _ | ⟨r, rest⟩
      · simp [progressOf]
      · rw [hrecv]
        simp only [List.isEmpty_cons, List.map_cons, List.sum_cons, Bool.false_eq_true,
          if_false]
        congr 2
        omega

/-- C2: the receiver initializes a fresh empty buffer, a zero counter
and progress 0 on `file-meta`; appends and advances the counter with
recomputed progress on each binary frame; and on `file-end`
materializes exactly one artifact equal to the concatenation of the
buffered segments in arrival order — of length equal to the running
total, whatever the declared size — clears the active transfer, and
makes exactly one persistence call. -/
theorem C2_receiver_reassembly (self : UserInfo) (fetchOk : Bool) (s : ClientState)
    (m : FileMeta) (bs : List (List Nat)) :
    ∃ s1 sF,
      handleChannelMessage self fetchOk s (Frame.meta m) = some s1
      ∧ s1.receivedBuffer = []
      ∧ s1.receivedSize = 0
      ∧ s1.activeTransfer = some { fileName := some m.fileName,
                                   fileSize := some m.fileSize,
                                   progress := some (JNum.num 0),
                                   kind := some TransferKind.receiving }
      ∧ (∀ (s2 : ClientState) (m2 : FileMeta) (data : List Nat),
          s2.transferMeta = some m2 →
          ∃ s3, handleChannelMessage self fetchOk s2 (Frame.binary data) = some s3
            ∧ s3.receivedBuffer = s2.receivedBuffer ++ [data]
            ∧ s3.receivedSize = s2.receivedSize + data.length
            ∧ progressOf s3 = some (jsProgress (s2.receivedSize + data.length) m2.fileSize))
      ∧ runChannel self fetchOk s
          (Frame.meta m :: (bs.map Frame.binary ++ [Frame.fileEnd])) = some sF
      ∧ sF.savedArtifacts = s.savedArtifacts ++ [bs.flatten]
      ∧ bs.flatten.length = (bs.map List.length).sum
      ∧ sF.activeTransfer = none
      ∧ sF.logAttempts = s.logAttempts ++
          [⟨m.fileName, m.fileSize, m.fileType, m.senderId, some self.id⟩] := by
  have hmetastep : handleChannelMessage self fetchOk s (Frame.meta m) =
      some { s with
        transferMeta := some m,
        receivedBuffer := [],
        receivedSize := 0,
        activeTransfer := some { fileName := some m.fileName,
                                 fileSize := some m.fileSize,
                                 progress := some (JNum.num 0),
                                 kind := some TransferKind.receiving } } := rfl
  obtain ⟨s2, hrun2, hmeta2, hbuf2, hsize2, hart2, htoast2, hlog2, hlogf2, hframes2, hsent2,
    hprog2⟩ :=
    runChannel_binaries self fetchOk m bs
      { s with
        transferMeta := some m,
        receivedBuffer := [],
        receivedSize := 0,
        activeTransfer := some { fileName := some m.fileName,
                                 fileSize := some m.fileSize,
                                 progress := some (JNum.num 0),
                                 kind := some TransferKind.receiving } } rfl
  have hendstep : handleChannelMessage self fetchOk s2 Frame.fileEnd =
      some (logTransfer fetchOk
        ⟨m.fileName, m.fileSize, m.fileType, m.senderId, some self.id⟩
        { s2 with
          savedArtifacts := s2.savedArtifacts ++ [s2.receivedBuffer.flatten],
          toasts := s2.toasts ++ ["File received successfully!"],
          activeTransfer := none }) := by
    simp [handleChannelMessage, hmeta2]
  refine ⟨_, logTransfer fetchOk
      ⟨m.fileName, m.fileSize, m.fileType, m.senderId, some self.id⟩
      { s2 with
        savedArtifacts := s2.savedArtifacts ++ [s2.receivedBuffer.flatten],
        toasts := s2.toasts ++ ["File received successfully!"],
        activeTransfer := none },
    hmetastep, rfl, rfl, rfl, ?_, ?_, ?_, ?_, rfl, ?_⟩
  · intro st m2 data hm2
    refine ⟨{ st with
        receivedBuffer := st.receivedBuffer ++ [data],
        receivedSize := st.receivedSize + data.length,
        activeTransfer := some { st.activeTransfer.getD {} with
          progress := some (jsProgress (st.receivedSize + data.length) m2.fileSize) } },
      ?_, rfl, rfl, ?_⟩
    · simp [handleChannelMessage, hm2]
    · simp [progressOf]
  · have hsplit : Frame.meta m :: (bs.map Frame.binary ++ [Frame.fileEnd]) =
        (Frame.meta m :: bs.map Frame.binary) ++ [Frame.fileEnd] := by simp
    rw [hsplit, runChannel_append]
    have hfirst : runChannel self fetchOk s (Frame.meta m :: bs.map Frame.binary) = some s2 := by
      simp only [runChannel, hmetastep]
      exact hrun2
    rw [hfirst]
    show runChannel self fetchOk s2 [Frame.fileEnd] = _
    simp only [runChannel, hendstep]
  · show (logTransfer fetchOk _ _).savedArtifacts = _
    simp only [logTransfer]
    rw [hart2, hbuf2]
    simp
  · rw [List.length_flatten]
  · show (logTransfer fetchOk _ _).logAttempts = _
    simp only [logTransfer]
    rw [hlog2]

/-- Closed instance of `C2_receiver_reassembly`. -/
theorem C2_receiver_reassembly_witness :
    ∃ s1 sF,
      handleChannelMessage wAlice true {} (Frame.meta wMeta) = some s1
      ∧ s1.receivedBuffer = []
      ∧ s1.receivedSize = 0
      ∧ s1.activeTransfer = some { fileName := some wMeta.fileName,
                                   fileSize := some wMeta.fileSize,
                                   progress := some (JNum.num 0),
                                   kind := some TransferKind.receiving }
      ∧ (∀ (s2 : ClientState) (m2 : FileMeta) (data : List Nat),
          s2.transferMeta = some m2 →
          ∃ s3, handleChannelMessage wAlice true s2 (Frame.binary data) = some s3
            ∧ s3.receivedBuffer = s2.receivedBuffer ++ [data]
            ∧ s3.receivedSize = s2.receivedSize + data.length
            ∧ progressOf s3 = some (jsProgress (s2.receivedSize + data.length) m2.fileSize))
      ∧ runChannel wAlice true {}
          (Frame.meta wMeta :: ([[1], [2, 3]].map Frame.binary ++ [Frame.fileEnd])) = some sF
      ∧ sF.savedArtifacts = ClientState.savedArtifacts {} ++ [[[1], [2, 3]].flatten]
      ∧ ([[1], [2, 3]] : List (List Nat)).flatten.length =
          ([[1], [2, 3]].map List.length).sum
      ∧ sF.activeTransfer = none
      ∧ sF.logAttempts = ClientState.logAttempts {} ++
          [⟨wMeta.fileName, wMeta.fileSize, wMeta.fileType, wMeta.senderId, some wAlice.id⟩] :=
  C2_receiver_reassembly wAlice true {} wMeta [[1], [2, 3]]

theorem sum_take_mono (l : List Nat) (k : Nat) : (l.take k).sum ≤ (l.take (k + 1)).sum := by
  induction l generalizing k with
  | nil => simp
  | cons a rest ih =>
    cases k with
    | zero => simp
    | succ k =>
      simp only [List.take_succ_cons, List.sum_cons]
      exact Nat.add_le_add_left (ih k) a

/-- The receiver state after `file-meta` followed by a block of binary
frames: the running total is the sum of the block lengths and the
stored progress is 0 right after the metadata, then the progress of
the running total. -/
theorem runChannel_meta_prefix (self : UserInfo) (fetchOk : Bool) (s : ClientState)
    (m : FileMeta) (cs : List (List Nat)) :
    ∃ sk, runChannel self fetchOk s (Frame.meta m :: cs.map Frame.binary) = some sk
      ∧ sk.receivedSize = (cs.map List.length).sum
      ∧ progressOf sk = some (if cs.isEmpty then JNum.num 0
          else jsProgress (cs.map List.length).sum m.fileSize) := by
  obtain ⟨sk, hrun, hmeta, hbuf, hsize, hart, htoast, hlog, hlogf, hframes, hsent, hprog⟩ :=
    runChannel_binaries self fetchOk m cs
      { s with
        transferMeta := some m,
        receivedBuffer := [],
        receivedSize := 0,
        activeTransfer := some { fileName := some m.fileName,
                                 fileSize := some m.fileSize,
                                 progress := some (JNum.num 0),
                                 kind := some TransferKind.receiving } } rfl
  refine ⟨sk, ?_, ?_, ?_⟩
  · simp only [runChannel]
    exact hrun
  · rw [hsize]
    simp
  · rw [hprog]
    by_cases hcs : cs.isEmpty
    · simp [hcs, progressOf]
    · simp [hcs, progressOf]

/-- C3 (amended to positive declared sizes): for every file of at
least one byte, the progress the sender stores starts at 0 and is
non-decreasing and never exceeds 100 along the slice loop; the
source formula equals min(100, 100·received/size) whenever the size
is at least 1; and on the receiving side, along `file-meta` followed
by any block of binary frames, every consecutive pair of stored
progress values is non-decreasing and each is at most 100.  (At
declared size 0 the computed progress is `NaN` — see the
counterexample — so the claim is restricted to sizes ≥ 1.) -/
theorem C3_progress_bounded_monotone (file : List Nat) (hf : 1 ≤ file.length)
    (self : UserInfo) (fetchOk : Bool) (s : ClientState) (m : FileMeta)
    (hm : 1 ≤ m.fileSize) (bs : List (List Nat)) :
    List.Chain' (fun a b => jleB a b = true) (JNum.num 0 :: senderProgresses file 0)
    ∧ (∀ p ∈ senderProgresses file 0, jleB p (JNum.num 100) = true)
    ∧ (∀ r d : Nat, 1 ≤ d → jsProgress r d = JNum.num (min 100 (100 * (r : ℚ) / (d : ℚ))))
    ∧ (∀ k : Nat, ∃ sk sk1 pk pk1,
        runChannel self fetchOk s (Frame.meta m :: (bs.take k).map Frame.binary) = some sk
        ∧ runChannel self fetchOk s
            (Frame.meta m :: (bs.take (k + 1)).map Frame.binary) = some sk1
        ∧ progressOf sk = some pk
        ∧ progressOf sk1 = some pk1
        ∧ jleB pk pk1 = true
        ∧ jleB pk (JNum.num 100) = true
        ∧ jleB pk1 (JNum.num 100) = true) := by
  refine ⟨?_, senderProgresses_le_100 file hf 0, fun r d hd => jsProgress_eq r d hd, ?_⟩
  · have h0 : JNum.num 0 = jsProgress 0 file.length := (jsProgress_zero file.length hf).symm
    rw [h0]
    exact senderProgresses_chain file hf 0
  · intro k
    obtain ⟨sk, hrunk, hsizek, hprogk⟩ := runChannel_meta_prefix self fetchOk s m (bs.take k)
    obtain ⟨sk1, hrunk1, hsizek1, hprogk1⟩ :=
      runChannel_meta_prefix self fetchOk s m (bs.take (k + 1))
    refine ⟨sk, sk1,
      (if (bs.take k).isEmpty then JNum.num 0
        else jsProgress ((bs.take k).map List.length).sum m.fileSize),
      (if (bs.take (k + 1)).isEmpty then JNum.num 0
        else jsProgress ((bs.take (k + 1)).map List.length).sum m.fileSize),
      hrunk, hrunk1, hprogk, hprogk1, ?_, ?_, ?_⟩
    · by_cases h1 : (bs.take k).isEmpty = true
      · by_cases h2 : (bs.take (k + 1)).isEmpty = true
        · rw [if_pos h1, if_pos h2]
          decide
        · rw [if_pos h1, if_neg h2]
          exact jsProgress_nonneg _ _ hm
      · have h2 : ¬ (bs.take (k + 1)).isEmpty = true := by
          simp only [List.isEmpty_iff, List.take_eq_nil_iff] at h1 ⊢
          rintro (h | h)
          · omega
          · exact h1 (Or.inr h)
        rw [if_neg h1, if_neg h2]
        have hsum : ((bs.take k).map List.length).sum ≤
            ((bs.take (k + 1)).map List.length).sum := by
          rw [List.map_take, List.map_take]
          exact sum_take_mono (bs.map List.length) k
        exact jsProgress_mono m.fileSize hm _ _ hsum
    · by_cases h1 : (bs.take k).isEmpty = true
      · rw [if_pos h1]
        decide
      · rw [if_neg h1]
        exact jsProgress_le_100 _ _ hm
    · by_cases h2 : (bs.take (k + 1)).isEmpty = true
      · rw [if_pos h2]
        decide
      · rw [if_neg h2]
        exact jsProgress_le_100 _ _ hm

/-- C3 counterexample to the claim as stated (which demands the
property for every declared size ≥ 0): for an empty file (size 0) the
sender loop still runs once, and the single progress value it stores
is `(0 / 0) * 100 = NaN`, which is neither ≥ the initial progress 0
nor ≤ 100 under JS comparison — so progress is not monotonically
non-decreasing (nor bounded) at declared size 0. -/
theorem C3_counterexample :
    senderProgresses [] 0 = [JNum.nan]
    ∧ jleB (JNum.num 0) JNum.nan = false
    ∧ jleB JNum.nan (JNum.num 100) = false := by
  refine ⟨?_, rfl, rfl⟩
  rw [senderProgresses]
  norm_num [jsProgress, jsDiv, jsMul100, jsMin100]

/-- Closed instance of `C3_progress_bounded_monotone`. -/
theorem C3_progress_bounded_monotone_witness :
    List.Chain' (fun a b => jleB a b = true)
      (JNum.num 0 :: senderProgresses [1, 2, 3] 0)
    ∧ (∀ p ∈ senderProgresses [1, 2, 3] 0, jleB p (JNum.num 100) = true)
    ∧ (∀ r d : Nat, 1 ≤ d → jsProgress r d = JNum.num (min 100 (100 * (r : ℚ) / (d : ℚ))))
    ∧ (∀ k : Nat, ∃ sk sk1 pk pk1,
        runChannel wAlice true {}
          (Frame.meta wMeta :: (([[1], [2]] : List (List Nat)).take k).map Frame.binary) =
            some sk
        ∧ runChannel wAlice true {}
            (Frame.meta wMeta ::
              (([[1], [2]] : List (List Nat)).take (k + 1)).map Frame.binary) = some sk1
        ∧ progressOf sk = some pk
        ∧ progressOf sk1 = some pk1
        ∧ jleB pk pk1 = true
        ∧ jleB pk (JNum.num 100) = true
        ∧ jleB pk1 (JNum.num 100) = true) :=
  C3_progress_bounded_monotone [1, 2, 3] (by decide) wAlice true {} wMeta (by decide)
    [[1], [2]]

end P2P
